import Mathlib

/-!
Verification development for the HubSpot deal/activity export tool
(`hubspot-sync.js` plus its OAuth companion script).

The vendor client library, the network and the filesystem are modelled as
explicit parameters (functions returning `Except String` results); the token
mutated in place on the shared client object is threaded as a `Nat`
"generation" counter, incremented by every successful refresh.  `while` loops
and the resolver's retry recursion are translated with an explicit fuel
argument: a result of `none` means the source program does not terminate
(or overflows the stack) on that input.
-/

/-- A vendor deal record.  Only the identifier is ever inspected by the
program (the property projection is passed through verbatim), so the other
properties are omitted from the model. -/
structure Deal where
  id : Nat
deriving DecidableEq, Repr

/-- One page returned by the list-deals capability: the records of the page
plus the optional next-page cursor (`response.paging.next.after`).  Cursors
are modelled as page indices. -/
structure PageResp where
  results : List Deal
  next : Option Nat
deriving DecidableEq, Repr

/-- The pagination cursor: `none` is the initial undefined `after`,
`some i` asks for page `i`. -/
def cursorIdx : Option Nat → Nat
  | none => 0
  | some i => i

/-- `error.message.includes('401')`: the substring scan used to classify an
error as authentication expiry. -/
def findPat (pat : List Char) : List Char → Option Nat
  | [] => if pat = [] then some 0 else none
  | c :: rest =>
    if pat.isPrefixOf (c :: rest) then some 0
    else (findPat pat rest).map (· + 1)

/-- `msg.includes('401')`. -/
def has401 (msg : String) : Bool :=
  (findPat "401".toList msg.toList).isSome

/-- The loop body of `getAllDeals`: request the page at the current cursor,
append its results, advance the cursor from `paging.next` or stop; on an
error whose message contains `401` while a refresh token is configured,
refresh the token and retry the same cursor (`continue`); if the refresh
itself fails, rethrow its error; any other error is rethrown.
`fuel` bounds the number of iterations; `none` models divergence. -/
def getAllDealsLoop (api : Option Nat → Nat → Except String PageResp)
    (refresh : Nat → Except String Nat) (hasRefreshTok : Bool) :
    Nat → Option Nat → Nat → List Deal → Option (Except String (List Deal))
  | 0, _, _, _ => none
  | fuel + 1, after, tok, deals =>
    match api after tok with
    | .ok r =>
      match r.next with
      | some c => getAllDealsLoop api refresh hasRefreshTok fuel (some c) tok (deals ++ r.results)
      | none => some (.ok (deals ++ r.results))
    | .error msg =>
      if has401 msg && hasRefreshTok then
        match refresh tok with
        | .ok tok2 => getAllDealsLoop api refresh hasRefreshTok fuel after tok2 deals
        | .error e => some (.error e)
      else some (.error msg)

/-- `getAllDeals()`: run the pagination loop from the undefined cursor with
the current token and an empty accumulator. -/
def getAllDeals (api : Option Nat → Nat → Except String PageResp)
    (refresh : Nat → Except String Nat) (hasRefreshTok : Bool) (fuel : Nat) :
    Option (Except String (List Deal)) :=
  getAllDealsLoop api refresh hasRefreshTok fuel none 0 []

/-- A well-behaved vendor holding the pagination sequence `pages`:
every request for page `i` succeeds and carries a next cursor exactly when
a further page exists. -/
def mkApi (pages : List (List Deal)) : Option Nat → Nat → Except String PageResp :=
  fun c _ =>
    .ok ⟨pages.getD (cursorIdx c) [],
         if cursorIdx c + 1 < pages.length then some (cursorIdx c + 1) else none⟩

/-- The same vendor, except that each of the first `k` requests for page `n`
(i.e. those made with a token that has seen fewer than `k` refreshes) fails
with a 401-style message. -/
def api401k (pages : List (List Deal)) (n k : Nat) :
    Option Nat → Nat → Except String PageResp :=
  fun c tok =>
    if cursorIdx c = n ∧ tok < k then .error "Request failed with status code 401"
    else mkApi pages c tok

/-- A token refresh that always succeeds with the next token generation. -/
def rfSucc : Nat → Except String Nat := fun t => .ok (t + 1)

/-- An association reference returned by the association listing; only
`toObjectId` is read by the program. -/
structure AssocRef where
  toObjectId : Nat
deriving DecidableEq, Repr

/-- A vendor engagement object (note/call/meeting/email/task), opaque to the
program and passed through verbatim; modelled by its identifier. -/
structure EngagementObj where
  oid : Nat
deriving DecidableEq, Repr

/-- What `getAssociatedObjects` hands back on its non-throwing paths: either
the `{associations, objects}` record, or — in the `default` switch branch —
the raw association list itself (`return associations.results`). -/
inductive ResolveResult where
  | pair (associations : List AssocRef) (objects : List EngagementObj)
  | raw (associations : List AssocRef)
deriving DecidableEq, Repr

/-- The five engagement types having a case in the batch-read switch. -/
def recognizedTypes : List String := ["notes", "emails", "calls", "meetings", "tasks"]

/-- Whether the switch has a batch-read case for this object type. -/
def isRecognized (t : String) : Bool := recognizedTypes.contains t

/-- Structural worker for the chunking loop: the `Nat` argument is a fuel
bound on the number of chunks (one element is consumed per chunk, so the
length of the list is always enough fuel). -/
def chunksGo : Nat → List Nat → List (List Nat)
  | 0, _ => []
  | _ + 1, [] => []
  | n + 1, x :: xs => ((x :: xs).take 100) :: chunksGo n ((x :: xs).drop 100)

/-- The chunking loop `for (let i = 0; i < objectIds.length; i += 100)`
with `slice(i, i + 100)`: consecutive chunks of at most 100 ids. -/
def chunksOf100 (ids : List Nat) : List (List Nat) :=
  chunksGo ids.length ids

/-- The per-chunk batch-read loop: for each chunk, if the object type has a
switch case, issue the type-specific batch read, appending its results on
success and skipping the chunk on failure; for an unrecognized type the
`default` branch returns the raw association list from inside the loop. -/
def batchChunks (br : String → List Nat → Except String (List EngagementObj))
    (objectType : String) (assocs : List AssocRef) (acc : List EngagementObj) :
    List (List Nat) → ResolveResult
  | [] => .pair assocs acc
  | chunk :: rest =>
    if isRecognized objectType then
      match br objectType chunk with
      | .ok objs => batchChunks br objectType assocs (acc ++ objs) rest
      | .error _ => batchChunks br objectType assocs acc rest
    else .raw assocs

/-- `getAssociatedObjects(dealId, objectType)`: list the associations for
the deal; when non-empty, resolve the target ids through the chunked batch
reads; when empty, return the empty pair.  A listing failure whose message
contains `401` (with a refresh token configured) refreshes the token and
recursively retries the whole call — a refresh failure propagates out as an
error; every other listing failure yields the empty pair.  `fuel` bounds the
retry recursion; `none` models divergence. -/
def getAssociatedObjects (la : Nat → String → Nat → Except String (List AssocRef))
    (br : String → List Nat → Except String (List EngagementObj))
    (refresh : Nat → Except String Nat) (hasRefreshTok : Bool) :
    Nat → Nat → String → Nat → Option (Except String ResolveResult)
  | 0, _, _, _ => none
  | fuel + 1, dealId, objectType, tok =>
    match la dealId objectType tok with
    | .ok assocs =>
      if 0 < assocs.length then
        some (.ok (batchChunks br objectType assocs []
          (chunksOf100 (assocs.map AssocRef.toObjectId))))
      else some (.ok (.pair [] []))
    | .error msg =>
      if has401 msg && hasRefreshTok then
        match refresh tok with
        | .ok tok2 => getAssociatedObjects la br refresh hasRefreshTok fuel dealId objectType tok2
        | .error e => some (.error e)
      else some (.ok (.pair [] []))

/-- The five engagement types the aggregator iterates, in source order. -/
def activityTypes : List String := ["notes", "calls", "meetings", "emails", "tasks"]

/-- The per-deal activity record: deal id, snapshot timestamp, an optional
error message, and the engagement-type entries in insertion order. -/
structure ActivityRecord where
  deal_id : Nat
  timestamp : String
  error : Option String := none
  activity_types : List (String × ResolveResult)
deriving DecidableEq, Repr

/-- The aggregator's `for (const type of activityTypes)` loop: resolve each
type in turn, storing the result under the type name; a resolver error
aborts the loop (to be caught by the aggregator), and resolver divergence
diverges. -/
def getDealActivitiesLoop (resolve : String → Option (Except String ResolveResult)) :
    List String → List (String × ResolveResult)
      → Option (Except String (List (String × ResolveResult)))
  | [], acc => some (.ok acc)
  | t :: rest, acc =>
    match resolve t with
    | none => none
    | some (.error e) => some (.error e)
    | some (.ok r) => getDealActivitiesLoop resolve rest (acc ++ [(t, r)])

/-- The degraded record's five empty engagement-type entries. -/
def emptyActivityTypes : List (String × ResolveResult) :=
  [("notes", .pair [] []), ("calls", .pair [] []), ("meetings", .pair [] []),
   ("emails", .pair [] []), ("tasks", .pair [] [])]

/-- `getDealActivities(dealId)`: build the per-deal record by resolving all
five engagement types; if a failure escapes the resolver, the defensive
catch produces the degraded record with the failure message and all five
entries empty. -/
def getDealActivities (la : Nat → String → Nat → Except String (List AssocRef))
    (br : String → List Nat → Except String (List EngagementObj))
    (refresh : Nat → Except String Nat) (hasRefreshTok : Bool)
    (fuel dealId tok : Nat) (ts : String) : Option ActivityRecord :=
  match getDealActivitiesLoop
      (fun t => getAssociatedObjects la br refresh hasRefreshTok fuel dealId t tok)
      activityTypes [] with
  | none => none
  | some (.ok entries) => some ⟨dealId, ts, none, entries⟩
  | some (.error e) => some ⟨dealId, ts, some e, emptyActivityTypes⟩

/-- The export driver's write condition:
`Object.values(activity_types).some(data => data.associations &&
data.associations.length > 0)`.  On a raw-array entry the `associations`
field access yields `undefined`, which is falsy. -/
def hasActivities (rec : ActivityRecord) : Bool :=
  rec.activity_types.any fun p =>
    match p.2 with
    | .pair a _ => decide (0 < a.length)
    | .raw _ => false

/-- The driver's per-deal activity phase, abstracted over the aggregator:
returns the ids of the deals whose `activities/{dealId}.json` file is
written (a deal's file is written exactly when its record passes
`hasActivities`); `none` when some aggregation diverges. -/
def exportActivityIds (agg : Nat → Option ActivityRecord) : List Deal → Option (List Nat)
  | [] => some []
  | d :: rest =>
    match agg d.id with
    | none => none
    | some rec =>
      match exportActivityIds agg rest with
      | none => none
      | some written => some ((if hasActivities rec then [d.id] else []) ++ written)

/-- The token triple written back to the config file. -/
structure TokenSet where
  accessToken : String
  refreshToken : String
  expiresAt : Nat
deriving DecidableEq, Repr

def accessKey : List Char := "HUBSPOT_ACCESS_TOKEN=".toList

def refreshKey : List Char := "HUBSPOT_REFRESH_TOKEN=".toList

def expiresKey : List Char := "HUBSPOT_TOKEN_EXPIRES_AT=".toList

/-- One `content.replace(/KEY=(.*)/, 'KEY=value')` call on the file seen as
a list of lines: the first line containing the pattern is rewritten from the
pattern's first in-line occurrence to the end of the line; every other line
is passed through.  (`.` does not match a newline, so a match never crosses
a line; without the `g` flag only the first occurrence is replaced.) -/
def replaceFirstKey (pat value : List Char) : List (List Char) → List (List Char)
  | [] => []
  | line :: rest =>
    match findPat pat line with
    | some i => (line.take i ++ pat ++ value) :: rest
    | none => line :: replaceFirstKey pat value rest

/-- The content transformation of `updateEnvFile`: the three in-place
replacements, in source order. -/
def updateEnvFile (t : TokenSet) (lines : List (List Char)) : List (List Char) :=
  replaceFirstKey expiresKey (Nat.repr t.expiresAt).toList
    (replaceFirstKey refreshKey t.refreshToken.toList
      (replaceFirstKey accessKey t.accessToken.toList lines))

/-- The whole `updateEnvFile` call including its try/catch: read the file,
transform, write back; any filesystem error is caught and only logged, so
the call always completes and on failure the on-disk content is unchanged. -/
def updateEnvFileRun (t : TokenSet) (disk : List (List Char))
    (readFails writeFails : Bool) : List (List Char) :=
  if readFails then disk
  else if writeFails then disk
  else updateEnvFile t disk

/-- The process-wide mutable configuration (only the fields touched by the
token refresh plus the OAuth credentials). -/
structure Config where
  accessToken : String
  refreshToken : String
  clientId : String
  clientSecret : String
  tokenExpiresAt : Option Nat
deriving DecidableEq, Repr

/-- The OAuth token endpoint's response to a refresh-token exchange. -/
structure OAuthResp where
  accessToken : String
  refreshToken : String
  expiresIn : Nat
deriving DecidableEq, Repr

/-- `refreshAccessToken()`: exchange the refresh token; on success update
the in-memory config, run `updateEnvFile`, and return the new access token;
on exchange failure rethrow.  The returned triple is (new access token,
updated in-memory config, resulting on-disk config content). -/
def refreshAccessToken (oauthCreate : Except String OAuthResp) (now : Nat)
    (cfg : Config) (disk : List (List Char)) (readFails writeFails : Bool) :
    Except String (String × Config × List (List Char)) :=
  match oauthCreate with
  | .error e => .error e
  | .ok r =>
    let expiresAt := now + r.expiresIn * 1000
    let cfg2 := { cfg with
      accessToken := r.accessToken
      refreshToken := r.refreshToken
      tokenExpiresAt := some expiresAt }
    .ok (r.accessToken, cfg2,
      updateEnvFileRun ⟨r.accessToken, r.refreshToken, expiresAt⟩ disk readFails writeFails)

/-- A deal listing that always reports one association with target id 42. -/
def laOneAssoc : Nat → String → Nat → Except String (List AssocRef) :=
  fun _ _ _ => .ok [⟨42⟩]

/-- A batch reader that always returns no objects. -/
def brEmpty : String → List Nat → Except String (List EngagementObj) :=
  fun _ _ => .ok []

/-- A refresh that succeeds once and fails if invoked a second time. -/
def rfOnce : Nat → Except String Nat :=
  fun t => if t = 0 then .ok 1 else .error "second refresh attempted"

/-- A config file whose first line is a comment that happens to contain the
access-token pattern, followed by the real token lines. -/
def envDemoLines : List (List Char) :=
  ["# HUBSPOT_ACCESS_TOKEN=demo".toList,
   "HUBSPOT_ACCESS_TOKEN=old".toList,
   "HUBSPOT_REFRESH_TOKEN=r0".toList,
   "HUBSPOT_TOKEN_EXPIRES_AT=1".toList,
   "OUTPUT_DIR=./data".toList]

/-- Whether a resolver outcome is the `{associations, objects}` record. -/
def isPairResult : Option (Except String ResolveResult) → Bool
  | some (.ok (.pair _ _)) => true
  | _ => false

/-- A listing that reports 250 associations with target ids 0..249. -/
def la250 : Nat → String → Nat → Except String (List AssocRef) :=
  fun _ _ _ => .ok ((List.range 250).map AssocRef.mk)

/-- A batch reader that fails on the chunk starting at id 100 and otherwise
echoes the requested ids as objects. -/
def brFails2nd : String → List Nat → Except String (List EngagementObj) :=
  fun _ chunk =>
    if chunk.headD 0 = 100 then .error "Internal Server Error"
    else .ok (chunk.map EngagementObj.mk)

/-- A listing that always reports no associations. -/
def laEmptyAll : Nat → String → Nat → Except String (List AssocRef) :=
  fun _ _ _ => .ok []

/-- A concrete starting configuration. -/
def cfg0 : Config := ⟨"a0", "r0", "cid", "csec", some 5⟩

/-- An activity record with one non-empty notes entry. -/
def recActive : ActivityRecord := ⟨1, "t", none, [("notes", .pair [⟨9⟩] [])]⟩

/-- An activity record with all five entries empty. -/
def recInactive : ActivityRecord := ⟨2, "t", none, emptyActivityTypes⟩

/-- An aggregator giving deal 1 an active record and every other deal an
inactive one. -/
def agg6 : Nat → Option ActivityRecord :=
  fun n => if n = 1 then some recActive else some recInactive

theorem has401_apiMsg : has401 "Request failed with status code 401" = true := by
  decide

theorem getAllDealsLoop_ok_step (api : Option Nat → Nat → Except String PageResp)
    (refresh : Nat → Except String Nat) (hr : Bool) (fuel : Nat) (c : Option Nat)
    (tok : Nat) (acc : List Deal) (r : PageResp) (h : api c tok = .ok r) :
    getAllDealsLoop api refresh hr (fuel + 1) c tok acc
      = match r.next with
        | some cc => getAllDealsLoop api refresh hr fuel (some cc) tok (acc ++ r.results)
        | none => some (.ok (acc ++ r.results)) := by
  simp [getAllDealsLoop, h]

theorem getAllDealsLoop_err_step (api : Option Nat → Nat → Except String PageResp)
    (refresh : Nat → Except String Nat) (hr : Bool) (fuel : Nat) (c : Option Nat)
    (tok : Nat) (acc : List Deal) (msg : String) (h : api c tok = .error msg) :
    getAllDealsLoop api refresh hr (fuel + 1) c tok acc
      = if has401 msg && hr then
          match refresh tok with
          | .ok tok2 => getAllDealsLoop api refresh hr fuel c tok2 acc
          | .error e => some (.error e)
        else some (.error msg) := by
  simp [getAllDealsLoop, h]

theorem getD_of_ge (pages : List (List Deal)) (i : Nat) (h : pages.length ≤ i) :
    pages.getD i [] = [] := by
  simp [List.getD_eq_getElem?_getD, List.getElem?_eq_none h]

theorem drop_flatten_eq_getD (pages : List (List Deal)) (i : Nat)
    (h : ¬ i + 1 < pages.length) :
    (pages.drop i).flatten = pages.getD i [] := by
  by_cases hlt : i < pages.length
  · have h1 : pages.drop i = pages[i] :: pages.drop (i + 1) := List.drop_eq_getElem_cons hlt
    have h2 : pages.drop (i + 1) = [] := List.drop_eq_nil_of_le (by omega)
    rw [h1, h2, List.getD_eq_getElem _ _ hlt]
    simp
  · rw [List.drop_eq_nil_of_le (by omega), getD_of_ge _ _ (by omega)]
    rfl

theorem getAllDealsLoop_clean (pages : List (List Deal))
    (api : Option Nat → Nat → Except String PageResp)
    (refresh : Nat → Except String Nat) (hasRefreshTok : Bool) (tok : Nat)
    (hagree : ∀ c, api c tok = mkApi pages c tok) :
    ∀ fuel c acc, pages.length ≤ cursorIdx c + fuel →
      getAllDealsLoop api refresh hasRefreshTok (fuel + 1) c tok acc
        = some (.ok (acc ++ (pages.drop (cursorIdx c)).flatten)) := by
  intro fuel
  induction fuel with
  | zero =>
    intro c acc hlen
    have hnext : ¬ cursorIdx c + 1 < pages.length := by omega
    rw [getAllDealsLoop_ok_step _ _ _ _ _ _ _ _ (hagree c)]
    simp only [mkApi, if_neg hnext]
    rw [drop_flatten_eq_getD _ _ hnext]
  | succ fuel ih =>
    intro c acc hlen
    rw [getAllDealsLoop_ok_step _ _ _ _ _ _ _ _ (hagree c)]
    by_cases hnext : cursorIdx c + 1 < pages.length
    · have hlt : cursorIdx c < pages.length := by omega
      have hget : pages.getD (cursorIdx c) [] = pages[cursorIdx c] := List.getD_eq_getElem _ _ hlt
      have hrec := ih (some (cursorIdx c + 1)) (acc ++ pages[cursorIdx c])
        (by show pages.length ≤ cursorIdx c + 1 + fuel; omega)
      simp only [mkApi, if_pos hnext]
      rw [hget] at *
      have hjoin : (List.drop (cursorIdx c) pages).flatten
          = pages[cursorIdx c] ++ (List.drop (cursorIdx c + 1) pages).flatten := by
        rw [List.drop_eq_getElem_cons hlt, List.flatten_cons]
      rw [hrec, hjoin, ← List.append_assoc]
      rfl
    · simp only [mkApi, if_neg hnext]
      rw [drop_flatten_eq_getD _ _ hnext]

theorem api401k_agree_late (pages : List (List Deal)) (n k : Nat) :
    ∀ c, api401k pages n k c k = mkApi pages c k := by
  intro c
  simp [api401k]

theorem getAllDealsLoop_burst (pages : List (List Deal)) (n k : Nat) :
    ∀ j fuel c t acc, cursorIdx c = n → t + j ≤ k →
      getAllDealsLoop (api401k pages n k) rfSucc true (j + fuel) c t acc
        = getAllDealsLoop (api401k pages n k) rfSucc true fuel c (t + j) acc := by
  intro j
  induction j with
  | zero => intro fuel c t acc _ _; simp
  | succ j ih =>
    intro fuel c t acc hc hj
    have herr : api401k pages n k c t = .error "Request failed with status code 401" := by
      simp [api401k, hc]
      omega
    rw [show j + 1 + fuel = j + fuel + 1 from by omega,
      getAllDealsLoop_err_step _ _ _ _ _ _ _ _ herr]
    simp only [has401_apiMsg, Bool.and_self, if_true, rfSucc]
    rw [ih fuel c (t + 1) acc hc (by omega), show t + 1 + j = t + (j + 1) from by omega]

theorem getAllDealsLoop_prefix_succ (pages : List (List Deal)) (n k : Nat)
    (hk : 1 ≤ k) (hn : n < pages.length) :
    ∀ fuel c acc, cursorIdx c ≤ n → pages.length + k ≤ cursorIdx c + fuel →
      getAllDealsLoop (api401k pages n k) rfSucc true (fuel + 1) c 0 acc
        = some (.ok (acc ++ (pages.drop (cursorIdx c)).flatten)) := by
  intro fuel
  induction fuel with
  | zero => intro c acc hc hlen; omega
  | succ fuel ih =>
    intro c acc hc hlen
    by_cases hcn : cursorIdx c = n
    · have hkf : k ≤ fuel := by omega
      rw [show fuel + 1 + 1 = k + (fuel + 2 - k) from by omega,
        getAllDealsLoop_burst pages n k k (fuel + 2 - k) c 0 acc hcn (by omega),
        show fuel + 2 - k = (fuel + 1 - k) + 1 from by omega]
      exact getAllDealsLoop_clean pages _ rfSucc true (0 + k)
        (by rw [Nat.zero_add]; exact api401k_agree_late pages n k)
        (fuel + 1 - k) c acc (by omega)
    · have hlt : cursorIdx c < n := by omega
      have hok : api401k pages n k c 0 = mkApi pages c 0 := by
        simp [api401k]
        omega
      have hnext : cursorIdx c + 1 < pages.length := by omega
      rw [getAllDealsLoop_ok_step _ _ _ _ _ _ _ _ (by rw [hok]; rfl)]
      simp only [if_pos hnext]
      have hrec := ih (some (cursorIdx c + 1)) (acc ++ pages.getD (cursorIdx c) [])
        (by show cursorIdx c + 1 ≤ n; omega)
        (by show pages.length + k ≤ cursorIdx c + 1 + fuel; omega)
      rw [hrec]
      have hjoin : (List.drop (cursorIdx c) pages).flatten
          = pages.getD (cursorIdx c) [] ++ (List.drop (cursorIdx c + 1) pages).flatten := by
        rw [List.drop_eq_getElem_cons (show cursorIdx c < pages.length by omega),
          List.flatten_cons, List.getD_eq_getElem _ _ (show cursorIdx c < pages.length by omega)]
      rw [hjoin, ← List.append_assoc]
      rfl

theorem getAllDealsLoop_prefix_fail (pages : List (List Deal)) (n : Nat) (msg : String)
    (hn : n < pages.length) :
    ∀ fuel c acc, cursorIdx c ≤ n → n + 1 ≤ cursorIdx c + fuel →
      getAllDealsLoop (api401k pages n 1) (fun _ => .error msg) true (fuel + 1) c 0 acc
        = some (.error msg) := by
  intro fuel
  induction fuel with
  | zero => intro c acc hc hlen; omega
  | succ fuel ih =>
    intro c acc hc hlen
    by_cases hcn : cursorIdx c = n
    · have herr : api401k pages n 1 c 0 = .error "Request failed with status code 401" := by
        simp [api401k, hcn]
      rw [getAllDealsLoop_err_step _ _ _ _ _ _ _ _ herr]
      simp [has401_apiMsg]
    · have hlt : cursorIdx c < n := by omega
      have hok : api401k pages n 1 c 0 = mkApi pages c 0 := by
        simp [api401k]
        omega
      have hnext : cursorIdx c + 1 < pages.length := by omega
      rw [getAllDealsLoop_ok_step _ _ _ _ _ _ _ _ (by rw [hok]; rfl)]
      simp only [if_pos hnext]
      exact ih (some (cursorIdx c + 1)) _
        (by show cursorIdx c + 1 ≤ n; omega)
        (by show n + 1 ≤ cursorIdx c + 1 + fuel; omega)

/-- Claim C1: for every pagination sequence served by the vendor,
`getAllDeals` returns exactly the concatenation of every page's results in
page order; the loop terminates exactly when a response lacks a next-page
cursor (a vendor that always supplies a next cursor makes the loop run
forever); and if the vendor never repeats a deal id anywhere in the
pagination run, the returned list has no duplicate deal ids. -/
theorem getAllDeals_pagination :
    (∀ (pages : List (List Deal)) (refresh : Nat → Except String Nat) (hr : Bool),
       getAllDeals (mkApi pages) refresh hr (pages.length + 1) = some (.ok pages.flatten))
    ∧ (∀ (pages : List (List Deal)) (refresh : Nat → Except String Nat) (hr : Bool),
         ((pages.map (List.map Deal.id)).flatten).Nodup →
         getAllDeals (mkApi pages) refresh hr (pages.length + 1) = some (.ok pages.flatten)
           ∧ ((pages.flatten).map Deal.id).Nodup)
    ∧ (∀ (api : Option Nat → Nat → Except String PageResp)
         (refresh : Nat → Except String Nat) (hr : Bool),
         (∀ c t, ∃ r, api c t = .ok r ∧ r.next.isSome = true) →
         ∀ fuel c t acc, getAllDealsLoop api refresh hr fuel c t acc = none) := by
  have main : ∀ (pages : List (List Deal)) (refresh : Nat → Except String Nat) (hr : Bool),
      getAllDeals (mkApi pages) refresh hr (pages.length + 1) = some (.ok pages.flatten) := by
    intro pages refresh hr
    have h := getAllDealsLoop_clean pages (mkApi pages) refresh hr 0 (fun _ => rfl)
      pages.length none [] (by simp [cursorIdx])
    simpa [getAllDeals, cursorIdx] using h
  refine ⟨main, ?_, ?_⟩
  · intro pages refresh hr hnodup
    refine ⟨main pages refresh hr, ?_⟩
    rw [List.map_flatten]
    exact hnodup
  · intro api refresh hr hforever fuel
    induction fuel with
    | zero => intro c t acc; rfl
    | succ fuel ih =>
      intro c t acc
      obtain ⟨r, hok, hnext⟩ := hforever c t
      obtain ⟨cc, hcc⟩ := Option.isSome_iff_exists.mp hnext
      rw [getAllDealsLoop_ok_step _ _ _ _ _ _ _ _ hok, hcc]
      exact ih (some cc) t (acc ++ r.results)

/-- Witness for claim C1 at a concrete two-page vendor and at a vendor whose
responses always carry a next cursor. -/
theorem getAllDeals_pagination_check :
    (getAllDeals (mkApi [[⟨1⟩], [⟨2⟩]]) rfSucc true 3 = some (.ok [⟨1⟩, ⟨2⟩])
       ∧ ([Deal.mk 1, Deal.mk 2].map Deal.id).Nodup)
    ∧ getAllDealsLoop (fun _ _ => .ok ⟨[], some 0⟩) rfSucc true 7 none 0 [] = none :=
  ⟨getAllDeals_pagination.2.1 [[⟨1⟩], [⟨2⟩]] rfSucc true (by decide),
   getAllDeals_pagination.2.2 (fun _ _ => .ok ⟨[], some 0⟩) rfSucc true
     (fun _ _ => ⟨⟨[], some 0⟩, rfl, rfl⟩) 7 none 0 []⟩

/-- Claim C2: a 401-classified failure on page `n` of the deal listing, with
a refresh token configured, refreshes the token and retries the same page:
the failing iteration changes only the token (same cursor, same accumulated
deals), and the final result equals the run in which no 401 occurred. -/
theorem getAllDeals_401_same_page (pages : List (List Deal)) (n : Nat)
    (hn : n < pages.length) :
    getAllDeals (api401k pages n 1) rfSucc true (pages.length + 2) = some (.ok pages.flatten)
    ∧ getAllDeals (mkApi pages) rfSucc true (pages.length + 1) = some (.ok pages.flatten)
    ∧ (∀ fuel c acc, cursorIdx c = n →
        getAllDealsLoop (api401k pages n 1) rfSucc true (fuel + 1) c 0 acc
          = getAllDealsLoop (api401k pages n 1) rfSucc true fuel c 1 acc) := by
  refine ⟨?_, ?_, ?_⟩
  · have h := getAllDealsLoop_prefix_succ pages n 1 (by omega) hn (pages.length + 1)
      none [] (by simp [cursorIdx]) (by simp [cursorIdx])
    simpa [getAllDeals, cursorIdx] using h
  · have h := getAllDealsLoop_clean pages (mkApi pages) rfSucc true 0 (fun _ => rfl)
      pages.length none [] (by simp [cursorIdx])
    simpa [getAllDeals, cursorIdx] using h
  · intro fuel c acc hc
    have herr : api401k pages n 1 c 0 = .error "Request failed with status code 401" := by
      simp [api401k, hc]
    rw [getAllDealsLoop_err_step _ _ _ _ _ _ _ _ herr]
    simp [has401_apiMsg, rfSucc]

/-- Witness for claim C2 on a concrete two-page vendor with a 401 on the
first request for page 0. -/
theorem getAllDeals_401_same_page_check :
    0 < 2
    ∧ getAllDeals (api401k [[⟨1⟩], [⟨2⟩]] 0 1) rfSucc true 4
        = some (.ok [⟨1⟩, ⟨2⟩]) :=
  ⟨by decide, (getAllDeals_401_same_page [[⟨1⟩], [⟨2⟩]] 0 (by decide)).1⟩

theorem chunksGo_fuel : ∀ n m (ids : List Nat), ids.length ≤ n → ids.length ≤ m →
    chunksGo n ids = chunksGo m ids := by
  intro n
  induction n with
  | zero =>
    intro m ids hn _
    have hnil : ids = [] := List.eq_nil_of_length_eq_zero (by omega)
    subst hnil
    cases m <;> rfl
  | succ n ih =>
    intro m ids hn hm
    cases ids with
    | nil => cases m <;> rfl
    | cons x xs =>
      cases m with
      | zero => simp at hm
      | succ m =>
        simp only [chunksGo]
        congr 1
        exact ih m ((x :: xs).drop 100)
          (by simp only [List.length_drop, List.length_cons] at *; omega)
          (by simp only [List.length_drop, List.length_cons] at *; omega)

theorem chunksOf100_cons (ids : List Nat) (h : ids ≠ []) :
    chunksOf100 ids = ids.take 100 :: chunksOf100 (ids.drop 100) := by
  cases ids with
  | nil => exact absurd rfl h
  | cons x xs =>
    show chunksGo (x :: xs).length (x :: xs) = _
    simp only [List.length_cons, chunksGo]
    congr 1
    exact chunksGo_fuel xs.length ((x :: xs).drop 100).length ((x :: xs).drop 100)
      (by simp only [List.length_drop, List.length_cons]; omega)
      (le_refl _)

theorem chunksOf100_flatten_aux : ∀ n (ids : List Nat), ids.length ≤ n →
    (chunksOf100 ids).flatten = ids := by
  intro n
  induction n with
  | zero =>
    intro ids h
    have hnil : ids = [] := List.eq_nil_of_length_eq_zero (by omega)
    subst hnil
    rfl
  | succ n ih =>
    intro ids h
    by_cases hnil : ids = []
    · subst hnil; rfl
    · have hp := List.length_pos.mpr hnil
      rw [chunksOf100_cons ids hnil, List.flatten_cons,
        ih (ids.drop 100) (by simp only [List.length_drop]; omega),
        List.take_append_drop]

theorem chunksOf100_bound_aux : ∀ n (ids : List Nat), ids.length ≤ n →
    ∀ c ∈ chunksOf100 ids, c.length ≤ 100 := by
  intro n
  induction n with
  | zero =>
    intro ids h c hc
    have hnil : ids = [] := List.eq_nil_of_length_eq_zero (by omega)
    subst hnil
    simp [chunksOf100, chunksGo] at hc
  | succ n ih =>
    intro ids h c hc
    by_cases hnil : ids = []
    · subst hnil; simp [chunksOf100, chunksGo] at hc
    · have hp := List.length_pos.mpr hnil
      rw [chunksOf100_cons ids hnil] at hc
      rcases List.mem_cons.mp hc with hhd | htl
      · subst hhd
        simp only [List.length_take]
        omega
      · exact ih (ids.drop 100) (by simp only [List.length_drop]; omega) c htl

theorem chunksOf100_250_sizes (ids : List Nat) (h : ids.length = 250) :
    (chunksOf100 ids).map List.length = [100, 100, 50] := by
  have h0 : ids ≠ [] := by intro e; rw [e] at h; simp at h
  have l1 : (ids.drop 100).length = 150 := by simp [h]
  have h1 : ids.drop 100 ≠ [] := by intro e; rw [e] at l1; simp at l1
  have l2 : ((ids.drop 100).drop 100).length = 50 := by simp [h]
  have h2 : (ids.drop 100).drop 100 ≠ [] := by intro e; rw [e] at l2; simp at l2
  have l3 : (((ids.drop 100).drop 100).drop 100).length = 0 := by simp [h]
  have h3 : ((ids.drop 100).drop 100).drop 100 = [] := List.eq_nil_of_length_eq_zero l3
  rw [chunksOf100_cons _ h0, chunksOf100_cons _ h1, chunksOf100_cons _ h2, h3]
  simp only [chunksOf100, chunksGo, List.map_cons, List.map_nil, List.length_take, h, l1, l2,
    List.length_nil]
  norm_num

theorem exceptToOption_ok (a : List EngagementObj) :
    ((Except.ok a : Except String (List EngagementObj))).toOption = some a := rfl

theorem exceptToOption_err (e : String) :
    ((Except.error e : Except String (List EngagementObj))).toOption = none := rfl

theorem batchChunks_recognized (br : String → List Nat → Except String (List EngagementObj))
    (ot : String) (hot : isRecognized ot = true) :
    ∀ chunks assocs acc, batchChunks br ot assocs acc chunks
      = .pair assocs (acc ++ (chunks.map (fun ch => ((br ot ch).toOption).getD [])).flatten) := by
  intro chunks
  induction chunks with
  | nil => intro assocs acc; simp [batchChunks]
  | cons ch rest ih =>
    intro assocs acc
    simp only [batchChunks, hot, if_true]
    cases hbr : br ot ch with
    | ok objs =>
      dsimp only
      rw [ih assocs (acc ++ objs)]
      simp [hbr, exceptToOption_ok, List.append_assoc]
    | error e =>
      dsimp only
      rw [ih assocs acc]
      simp [hbr, exceptToOption_err]

theorem getAssociatedObjects_listing_ok
    (la : Nat → String → Nat → Except String (List AssocRef))
    (br : String → List Nat → Except String (List EngagementObj))
    (refresh : Nat → Except String Nat) (hr : Bool) (fuel dealId : Nat) (ot : String)
    (tok : Nat) (assocs : List AssocRef)
    (hla : la dealId ot tok = .ok assocs) (hpos : 0 < assocs.length) :
    getAssociatedObjects la br refresh hr (fuel + 1) dealId ot tok
      = some (.ok (batchChunks br ot assocs []
          (chunksOf100 (assocs.map AssocRef.toObjectId)))) := by
  simp [getAssociatedObjects, hla, hpos]

/-- Claim C3: the resolver partitions the listed target ids into consecutive
chunks of at most 100 whose concatenation is the original id list, and for
250 ids the batched reads are exactly 3, of sizes 100, 100 and 50, in
order; the batch reads issued by `getAssociatedObjects` are exactly one per
chunk of `chunksOf100` applied to the listed ids. -/
theorem resolver_chunking :
    (∀ ids : List Nat, (chunksOf100 ids).flatten = ids)
    ∧ (∀ ids : List Nat, ∀ c ∈ chunksOf100 ids, c.length ≤ 100)
    ∧ (∀ ids : List Nat, ids.length = 250 → (chunksOf100 ids).map List.length = [100, 100, 50])
    ∧ (∀ (la : Nat → String → Nat → Except String (List AssocRef))
         (br : String → List Nat → Except String (List EngagementObj))
         (refresh : Nat → Except String Nat) (hr : Bool) (fuel dealId : Nat) (ot : String)
         (tok : Nat) (assocs : List AssocRef),
         la dealId ot tok = .ok assocs → 0 < assocs.length →
         getAssociatedObjects la br refresh hr (fuel + 1) dealId ot tok
           = some (.ok (batchChunks br ot assocs []
               (chunksOf100 (assocs.map AssocRef.toObjectId))))) :=
  ⟨fun ids => chunksOf100_flatten_aux ids.length ids (le_refl _),
   fun ids => chunksOf100_bound_aux ids.length ids (le_refl _),
   chunksOf100_250_sizes,
   getAssociatedObjects_listing_ok⟩

/-- Witness for claim C3: the 250-id split sizes and the resolver's
chunk-wise calls at a concrete input. -/
theorem resolver_chunking_check :
    (chunksOf100 (List.range 250)).map List.length = [100, 100, 50]
    ∧ getAssociatedObjects laOneAssoc brEmpty rfSucc true 1 7 "notes" 0
        = some (.ok (batchChunks brEmpty "notes" [⟨42⟩] [] (chunksOf100 [42]))) :=
  ⟨resolver_chunking.2.2.1 (List.range 250) (by simp),
   resolver_chunking.2.2.2 laOneAssoc brEmpty rfSucc true 0 7 "notes" 0 [⟨42⟩] rfl (by decide)⟩

/-- Claim C4: when the association listing succeeds with a non-empty result
for a recognized engagement type, the resolved record always comes back as
a non-throwing `{associations, objects}` pair whose `associations` are all
the listed references and whose `objects` are exactly the concatenation, in
chunk order, of the results of the successful batch reads — a failed chunk
contributes nothing and processing continues with the next chunk. -/
theorem resolver_partial_batches
    (la : Nat → String → Nat → Except String (List AssocRef))
    (br : String → List Nat → Except String (List EngagementObj))
    (refresh : Nat → Except String Nat) (hr : Bool) (fuel dealId : Nat) (ot : String)
    (tok : Nat) (assocs : List AssocRef)
    (hla : la dealId ot tok = .ok assocs) (hpos : 0 < assocs.length)
    (hot : isRecognized ot = true) :
    getAssociatedObjects la br refresh hr (fuel + 1) dealId ot tok
      = some (.ok (.pair assocs
          ((chunksOf100 (assocs.map AssocRef.toObjectId)).map
            (fun ch => ((br ot ch).toOption).getD [])).flatten)) := by
  rw [getAssociatedObjects_listing_ok la br refresh hr fuel dealId ot tok assocs hla hpos,
    batchChunks_recognized br ot hot]
  simp

/-- Witness for claim C4: 250 associations, the middle batch read fails,
the other two succeed. -/
theorem resolver_partial_batches_check :
    isRecognized "calls" = true
    ∧ getAssociatedObjects la250 brFails2nd rfSucc true 1 7 "calls" 0
        = some (.ok (.pair ((List.range 250).map AssocRef.mk)
            ((chunksOf100 (((List.range 250).map AssocRef.mk).map AssocRef.toObjectId)).map
              (fun ch => ((brFails2nd "calls" ch).toOption).getD [])).flatten)) :=
  ⟨by decide,
   resolver_partial_batches la250 brFails2nd rfSucc true 0 7 "calls" 0
     ((List.range 250).map AssocRef.mk) rfl (by simp) (by decide)⟩

/-- Claim C7 is contradicted by the code: for an engagement type outside the
five switch cases with a non-empty association listing, the resolver returns
the raw association list, not an `{associations, objects}` record. -/
theorem resolver_raw_counterexample :
    isPairResult (getAssociatedObjects laOneAssoc brEmpty rfSucc true 1 7 "tickets" 0) = false
    ∧ getAssociatedObjects laOneAssoc brEmpty rfSucc true 1 7 "tickets" 0
        = some (.ok (.raw [⟨42⟩])) :=
  ⟨rfl, rfl⟩

/-- Claim C7 amended: for the five recognized engagement types the resolver
either diverges (unbounded 401-and-refresh recursion), returns an
`{associations, objects}` pair (in particular it never returns a raw list),
or propagates an error raised by a failing token refresh; for an
unrecognized type with a non-empty association listing it returns the raw
association list instead of a record. -/
theorem resolver_shape_amended :
    (∀ (la : Nat → String → Nat → Except String (List AssocRef))
       (br : String → List Nat → Except String (List EngagementObj))
       (refresh : Nat → Except String Nat) (hr : Bool) (ot : String),
       isRecognized ot = true →
       ∀ fuel dealId tok,
         getAssociatedObjects la br refresh hr fuel dealId ot tok = none
         ∨ (∃ a o, getAssociatedObjects la br refresh hr fuel dealId ot tok
              = some (.ok (.pair a o)))
         ∨ (∃ e, getAssociatedObjects la br refresh hr fuel dealId ot tok
              = some (.error e)))
    ∧ (∀ (la : Nat → String → Nat → Except String (List AssocRef))
         (br : String → List Nat → Except String (List EngagementObj))
         (refresh : Nat → Except String Nat) (hr : Bool) (fuel dealId : Nat)
         (ot : String) (tok : Nat) (assocs : List AssocRef),
         isRecognized ot = false → la dealId ot tok = .ok assocs → 0 < assocs.length →
         getAssociatedObjects la br refresh hr (fuel + 1) dealId ot tok
           = some (.ok (.raw assocs))) := by
  constructor
  · intro la br refresh hr ot hot fuel dealId
    induction fuel with
    | zero => intro tok; left; rfl
    | succ fuel ih =>
      intro tok
      cases hla : la dealId ot tok with
      | ok assocs =>
        right; left
        by_cases hpos : 0 < assocs.length
        · rw [getAssociatedObjects_listing_ok la br refresh hr fuel dealId ot tok assocs hla hpos,
            batchChunks_recognized br ot hot]
          exact ⟨_, _, rfl⟩
        · exact ⟨[], [], by simp [getAssociatedObjects, hla, hpos]⟩
      | error msg =>
        by_cases h401 : (has401 msg && hr) = true
        · cases hrf : refresh tok with
          | ok tok2 =>
            have heq : getAssociatedObjects la br refresh hr (fuel + 1) dealId ot tok
                = getAssociatedObjects la br refresh hr fuel dealId ot tok2 := by
              simp [getAssociatedObjects, hla, h401, hrf]
            rw [heq]
            exact ih tok2
          | error e =>
            right; right
            exact ⟨e, by simp [getAssociatedObjects, hla, h401, hrf]⟩
        · right; left
          exact ⟨[], [], by simp [getAssociatedObjects, hla, h401]⟩
  · intro la br refresh hr fuel dealId ot tok assocs hot hla hpos
    rw [getAssociatedObjects_listing_ok la br refresh hr fuel dealId ot tok assocs hla hpos]
    have hne : assocs ≠ [] := by intro e; subst e; simp at hpos
    have hids : assocs.map AssocRef.toObjectId ≠ [] := by simpa using hne
    rw [chunksOf100_cons _ hids]
    simp [batchChunks, hot]

/-- Witness for the amended claim C7 at a concrete unrecognized type. -/
theorem resolver_shape_amended_check :
    getAssociatedObjects laOneAssoc brEmpty rfSucc true 1 7 "tickets" 0
      = some (.ok (.raw [⟨42⟩])) :=
  resolver_shape_amended.2 laOneAssoc brEmpty rfSucc true 0 7 "tickets" 0 [⟨42⟩]
    (by decide) rfl (by decide)

theorem getDealActivitiesLoop_keys (resolve : String → Option (Except String ResolveResult)) :
    ∀ types acc entries,
      getDealActivitiesLoop resolve types acc = some (.ok entries) →
      entries.map Prod.fst = acc.map Prod.fst ++ types := by
  intro types
  induction types with
  | nil =>
    intro acc entries h
    simp [getDealActivitiesLoop] at h
    subst h
    simp
  | cons t rest ih =>
    intro acc entries h
    cases hres : resolve t with
    | none => simp [getDealActivitiesLoop, hres] at h
    | some r =>
      cases r with
      | error e => simp [getDealActivitiesLoop, hres] at h
      | ok rr =>
        simp only [getDealActivitiesLoop, hres] at h
        have hk := ih (acc ++ [(t, rr)]) entries h
        rw [hk]
        simp

/-- Claim C5: whenever `getDealActivities` returns (it never rejects: every
failure escaping the resolver is absorbed by the defensive catch), the
record carries the requested deal id and timestamp, its `activity_types`
mapping has exactly the five keys notes, calls, meetings, emails, tasks in
order, and if the error field is set then all five entries are the empty
`{associations: [], objects: []}` pair. -/
theorem aggregator_shape (la : Nat → String → Nat → Except String (List AssocRef))
    (br : String → List Nat → Except String (List EngagementObj))
    (refresh : Nat → Except String Nat) (hr : Bool) (fuel dealId tok : Nat)
    (ts : String) (rec : ActivityRecord)
    (h : getDealActivities la br refresh hr fuel dealId tok ts = some rec) :
    rec.deal_id = dealId ∧ rec.timestamp = ts
    ∧ rec.activity_types.map Prod.fst = activityTypes
    ∧ (rec.error.isSome = true →
        rec.activity_types = activityTypes.map (fun t => (t, ResolveResult.pair [] []))) := by
  rw [getDealActivities] at h
  revert h
  cases hloop : getDealActivitiesLoop
      (fun t => getAssociatedObjects la br refresh hr fuel dealId t tok)
      activityTypes [] with
  | none => intro h; simp at h
  | some r =>
    cases r with
    | ok entries =>
      intro h
      dsimp only at h
      injection h with h2
      subst h2
      refine ⟨rfl, rfl, ?_, ?_⟩
      · have hk := getDealActivitiesLoop_keys _ activityTypes [] entries hloop
        simpa using hk
      · intro hs
        simp at hs
    | error e =>
      intro h
      dsimp only at h
      injection h with h2
      subst h2
      exact ⟨rfl, rfl, rfl, fun _ => rfl⟩

/-- Witness for claim C5 on a run in which every listing is empty. -/
theorem aggregator_shape_check :
    getDealActivities laEmptyAll brEmpty rfSucc true 1 5 0 "ts0"
      = some ⟨5, "ts0", none, activityTypes.map (fun t => (t, ResolveResult.pair [] []))⟩
    ∧ ((⟨5, "ts0", none,
         activityTypes.map (fun t => (t, ResolveResult.pair [] []))⟩ :
          ActivityRecord)).activity_types.map Prod.fst = activityTypes :=
  ⟨rfl,
   (aggregator_shape laEmptyAll brEmpty rfSucc true 1 5 0 "ts0"
     ⟨5, "ts0", none, activityTypes.map (fun t => (t, ResolveResult.pair [] []))⟩ rfl).2.2.1⟩

theorem exportActivityIds_mem (agg : Nat → Option ActivityRecord) :
    ∀ deals written, exportActivityIds agg deals = some written →
      ∀ n, n ∈ written ↔
        ∃ d, d ∈ deals ∧ d.id = n ∧ ∃ rec, agg n = some rec ∧ hasActivities rec = true := by
  intro deals
  induction deals with
  | nil =>
    intro written h n
    simp [exportActivityIds] at h
    subst h
    simp
  | cons d rest ih =>
    intro written h n
    cases hagg : agg d.id with
    | none => simp [exportActivityIds, hagg] at h
    | some rec =>
      cases hrest : exportActivityIds agg rest with
      | none => simp [exportActivityIds, hagg, hrest] at h
      | some w2 =>
        simp only [exportActivityIds, hagg, hrest] at h
        injection h with h2
        subst h2
        rw [List.mem_append, ih w2 hrest n]
        constructor
        · rintro (hmem | ⟨d2, hd2, hid, rec2, hrec2, hact⟩)
          · by_cases hha : hasActivities rec = true
            · rw [if_pos hha] at hmem
              have hn : n = d.id := by simpa using hmem
              subst hn
              exact ⟨d, List.mem_cons_self _ _, rfl, rec, hagg, hha⟩
            · rw [if_neg hha] at hmem
              simp at hmem
          · exact ⟨d2, List.mem_cons_of_mem _ hd2, hid, rec2, hrec2, hact⟩
        · rintro ⟨d2, hd2, hid, rec2, hrec2, hact⟩
          rcases List.mem_cons.mp hd2 with heq | hd2r
          · subst heq
            subst hid
            left
            have hr2 : rec2 = rec := by
              rw [hagg] at hrec2
              exact (Option.some.inj hrec2).symm
            subst hr2
            rw [if_pos hact]
            simp
          · right
            exact ⟨d2, hd2r, hid, rec2, hrec2, hact⟩

/-- Claim C6: the export driver writes `activities/{dealId}.json` for a deal
exactly when the deal's aggregated record passes the non-empty check, and
that check holds exactly when at least one engagement-type entry is a pair
with a non-empty associations list. -/
theorem export_writes_iff (agg : Nat → Option ActivityRecord) (deals : List Deal)
    (written : List Nat) (h : exportActivityIds agg deals = some written) :
    (∀ d ∈ deals, ∀ rec, agg d.id = some rec →
       (d.id ∈ written ↔ hasActivities rec = true))
    ∧ (∀ rec : ActivityRecord, hasActivities rec = true ↔
        ∃ p ∈ rec.activity_types, ∃ a o, p.2 = ResolveResult.pair a o ∧ a ≠ []) := by
  constructor
  · intro d hd rec hrec
    rw [exportActivityIds_mem agg deals written h d.id]
    constructor
    · rintro ⟨d2, _, _, rec2, hrec2, hact2⟩
      rw [hrec] at hrec2
      have h22 : rec2 = rec := (Option.some.inj hrec2).symm
      subst h22
      exact hact2
    · intro hact
      exact ⟨d, hd, rfl, rec, hrec, hact⟩
  · intro rec
    unfold hasActivities
    rw [List.any_eq_true]
    constructor
    · rintro ⟨p, hp, hmatch⟩
      cases h2 : p.2 with
      | pair a o =>
        rw [h2] at hmatch
        refine ⟨p, hp, a, o, h2, ?_⟩
        have hlen : 0 < a.length := of_decide_eq_true (by simpa using hmatch)
        intro e
        rw [e] at hlen
        simp at hlen
      | raw a =>
        rw [h2] at hmatch
        simp at hmatch
    · rintro ⟨p, hp, a, o, h2, hne⟩
      refine ⟨p, hp, ?_⟩
      rw [h2]
      simpa using List.length_pos.mpr hne

/-- Witness for claim C6: two deals, the first with one non-empty notes
entry, the second with all entries empty; only the first is written. -/
theorem export_writes_iff_check :
    exportActivityIds agg6 [⟨1⟩, ⟨2⟩] = some [1]
    ∧ ((1 : Nat) ∈ [1] ↔ hasActivities recActive = true) :=
  ⟨rfl, (export_writes_iff agg6 [⟨1⟩, ⟨2⟩] [1] rfl).1 ⟨1⟩ (by decide) recActive rfl⟩

/-- Claim C8 is contradicted by the code: when the retried request fails
with a 401-class error again, `getAllDeals` does not escalate — it invokes
the token refresh a second time for the same page.  With a refresh that
fails on its second invocation, the run ends with the second refresh's
error, which could only be produced by a second refresh-and-retry. -/
theorem second_refresh_counterexample :
    getAllDeals (api401k [[⟨1⟩]] 0 2) rfOnce true 4
      = some (.error "second refresh attempted") := rfl

/-- Claim C8 amended: in the deal-listing loop a 401-classified failure
triggers a refresh and a retry of the same request, and this repeats for
every further 401 of the retried request — `k` consecutive 401s on one page
are absorbed by `k` refresh-and-retry rounds and the run still returns all
pages; escalation happens only when the refresh itself fails.  A batch-read
failure inside the resolver, even when 401-classified, triggers no refresh:
the chunk is skipped like any other chunk failure. -/
theorem refresh_retry_amended :
    (∀ (pages : List (List Deal)) (n k : Nat), 1 ≤ k → n < pages.length →
       getAllDeals (api401k pages n k) rfSucc true (pages.length + k + 1)
         = some (.ok pages.flatten))
    ∧ (∀ (pages : List (List Deal)) (n : Nat) (msg : String), n < pages.length →
       getAllDeals (api401k pages n 1) (fun _ => .error msg) true (pages.length + 2)
         = some (.error msg))
    ∧ (∀ (br : String → List Nat → Except String (List EngagementObj))
         (ot : String) (assocs : List AssocRef) (acc : List EngagementObj)
         (chunk : List Nat) (rest : List (List Nat)) (msg : String),
         isRecognized ot = true → br ot chunk = .error msg →
         batchChunks br ot assocs acc (chunk :: rest) = batchChunks br ot assocs acc rest) := by
  refine ⟨?_, ?_, ?_⟩
  · intro pages n k hk hn
    have h := getAllDealsLoop_prefix_succ pages n k hk hn (pages.length + k)
      none [] (by simp [cursorIdx]) (by simp [cursorIdx])
    have harr : pages.length + k + 1 = (pages.length + k) + 1 := by omega
    rw [getAllDeals, harr]
    simpa [cursorIdx] using h
  · intro pages n msg hn
    have h := getAllDealsLoop_prefix_fail pages n msg hn (pages.length + 1)
      none [] (by simp [cursorIdx]) (by simp [cursorIdx]; omega)
    have harr : pages.length + 2 = (pages.length + 1) + 1 := by omega
    rw [getAllDeals, harr]
    exact h
  · intro br ot assocs acc chunk rest msg hot herr
    simp [batchChunks, hot, herr]

/-- Witness for the amended claim C8: two consecutive 401s on page 0 are
absorbed by two refreshes; a failing refresh escalates its error. -/
theorem refresh_retry_amended_check :
    getAllDeals (api401k [[⟨1⟩]] 0 2) rfSucc true 4 = some (.ok [⟨1⟩])
    ∧ getAllDeals (api401k [[⟨1⟩]] 0 1) (fun _ => .error "refresh failed") true 3
        = some (.error "refresh failed") :=
  ⟨refresh_retry_amended.1 [[⟨1⟩]] 0 2 (by decide) (by decide),
   refresh_retry_amended.2.1 [[⟨1⟩]] 0 "refresh failed" (by decide)⟩

/-- Claim C9 is contradicted by the code: the `KEY=` regexes are unanchored
and only the first occurrence is replaced, so in a file whose first line is
a comment containing `HUBSPOT_ACCESS_TOKEN=`, `updateEnvFile` rewrites the
comment line (a non-token line) and leaves the real access-token line
holding the stale value. -/
theorem updateEnvFile_comment_counterexample :
    updateEnvFile ⟨"NEWTOK", "NEWREF", 99⟩ envDemoLines
      = ["# HUBSPOT_ACCESS_TOKEN=NEWTOK".toList,
         "HUBSPOT_ACCESS_TOKEN=old".toList,
         "HUBSPOT_REFRESH_TOKEN=NEWREF".toList,
         "HUBSPOT_TOKEN_EXPIRES_AT=99".toList,
         "OUTPUT_DIR=./data".toList]
    ∧ (updateEnvFile ⟨"NEWTOK", "NEWREF", 99⟩ envDemoLines).getD 0 []
        ≠ envDemoLines.getD 0 [] := by
  refine ⟨rfl, ?_⟩
  decide

theorem replaceFirstKey_length (pat value : List Char) :
    ∀ lines, (replaceFirstKey pat value lines).length = lines.length := by
  intro lines
  induction lines with
  | nil => rfl
  | cons l rest ih =>
    simp only [replaceFirstKey]
    cases findPat pat l with
    | some i => simp
    | none => simp [ih]

theorem replaceFirstKey_getD (pat value : List Char) :
    ∀ lines i, findPat pat (lines.getD i []) = none →
      (replaceFirstKey pat value lines).getD i [] = lines.getD i [] := by
  intro lines
  induction lines with
  | nil => intro i _; rfl
  | cons l rest ih =>
    intro i h
    simp only [replaceFirstKey]
    cases hf : findPat pat l with
    | some j =>
      cases i with
      | zero =>
        exfalso
        rw [show (l :: rest).getD 0 [] = l from rfl, hf] at h
        exact Option.noConfusion h
      | succ i => rfl
    | none =>
      cases i with
      | zero => rfl
      | succ i => exact ih i (by simpa using h)

/-- Claim C9 amended: `updateEnvFile` changes only lines containing one of
the three `KEY=` patterns (the first such line per key, rewritten from the
pattern's first occurrence to the end of the line); any line free of all
three patterns is left byte-for-byte unchanged, and the number of lines is
preserved. -/
theorem updateEnvFile_frame_amended (t : TokenSet) (lines : List (List Char)) (i : Nat)
    (h1 : findPat accessKey (lines.getD i []) = none)
    (h2 : findPat refreshKey (lines.getD i []) = none)
    (h3 : findPat expiresKey (lines.getD i []) = none) :
    (updateEnvFile t lines).length = lines.length
    ∧ (updateEnvFile t lines).getD i [] = lines.getD i [] := by
  have e1 := replaceFirstKey_getD accessKey t.accessToken.toList lines i h1
  have e2 := replaceFirstKey_getD refreshKey t.refreshToken.toList
    (replaceFirstKey accessKey t.accessToken.toList lines) i (by rw [e1]; exact h2)
  have e3 := replaceFirstKey_getD expiresKey (Nat.repr t.expiresAt).toList
    (replaceFirstKey refreshKey t.refreshToken.toList
      (replaceFirstKey accessKey t.accessToken.toList lines)) i (by rw [e2, e1]; exact h3)
  refine ⟨?_, ?_⟩
  · simp [updateEnvFile, replaceFirstKey_length]
  · rw [updateEnvFile, e3, e2, e1]

/-- Witness for the amended claim C9: the `OUTPUT_DIR` line of the demo
config file is untouched. -/
theorem updateEnvFile_frame_amended_check :
    (updateEnvFile ⟨"A", "R", 7⟩ envDemoLines).length = envDemoLines.length
    ∧ (updateEnvFile ⟨"A", "R", 7⟩ envDemoLines).getD 4 [] = envDemoLines.getD 4 [] :=
  updateEnvFile_frame_amended ⟨"A", "R", 7⟩ envDemoLines 4 rfl rfl rfl

/-- Claim C10: `updateEnvFile` swallows every filesystem failure, so a
failed persist leaves the on-disk config unchanged while
`refreshAccessToken` still succeeds, returns the new access token and
updates the in-memory config — in-memory tokens and the persisted file
silently diverge. -/
theorem refresh_persist_failure (r : OAuthResp) (now : Nat) (cfg : Config)
    (disk : List (List Char)) (readFails writeFails : Bool)
    (hfail : readFails = true ∨ writeFails = true) :
    refreshAccessToken (.ok r) now cfg disk readFails writeFails
      = .ok (r.accessToken,
          { cfg with
            accessToken := r.accessToken
            refreshToken := r.refreshToken
            tokenExpiresAt := some (now + r.expiresIn * 1000) },
          disk)
    ∧ updateEnvFileRun ⟨r.accessToken, r.refreshToken, now + r.expiresIn * 1000⟩
        disk readFails writeFails = disk := by
  have hrun : updateEnvFileRun ⟨r.accessToken, r.refreshToken, now + r.expiresIn * 1000⟩
      disk readFails writeFails = disk := by
    rcases hfail with hf | hf <;> simp [updateEnvFileRun, hf]
  exact ⟨by simp [refreshAccessToken, hrun], hrun⟩

/-- Witness for claim C10: a concrete refresh with the file write failing. -/
theorem refresh_persist_failure_check :
    refreshAccessToken (.ok ⟨"na", "nr", 2⟩) 1000 cfg0 envDemoLines false true
      = .ok ("na", ⟨"na", "nr", "cid", "csec", some 3000⟩, envDemoLines)
    ∧ updateEnvFileRun ⟨"na", "nr", 3000⟩ envDemoLines false true = envDemoLines :=
  refresh_persist_failure ⟨"na", "nr", 2⟩ 1000 cfg0 envDemoLines false true (Or.inr rfl)
